import Mathlib

/-!
Verification of the taint-range propagation engine of this repository
(`_taint_tracking/Aspects/AspectOperatorAdd.cpp` and `AspectStr.cpp`).

The aspect entry points and their helper flow are embedded as executable Lean
functions over an explicit `TaintState` (the taint-range map plus the fresh-id
counters that model C++ object allocation).  Helpers that live elsewhere in the
repository (`TaintRange`, `TaintedObject`, the map accessors, `new_pyobject_id`,
`get_ranges`/`set_ranges`, `copy_and_shift_ranges_from_strings`) are modelled
from the specification, as marked on each definition.
-/

namespace TaintTracking

/-- Modelled from the spec: a taint-source descriptor (name + category) is an
externally supplied record that the engine only shares by reference; we model
it by an opaque numeric identity. -/
abbrev SourceId := Nat

/-- Modelled from the spec (the `TaintRange` class is not under `src/`): one
tainted span with `start`, `length` and a shared `source` reference.  The field
`rid` models the C++ instance identity (the address of the range object); two
ranges are the same instance iff their `rid`s agree, while `start`/`length`/
`source` are the visible value. -/
structure TaintRange where
  rid : Nat
  start : Nat
  length : Nat
  source : SourceId
deriving DecidableEq, Repr

/-- The visible value of a range, forgetting instance identity. -/
def rangeVal (r : TaintRange) : Nat × Nat × SourceId :=
  (r.start, r.length, r.source)

/-- Modelled from the spec (the `TaintedObject` class is not under `src/`): an
ordered collection of taint ranges for one value. -/
structure TaintedObject where
  ranges : List TaintRange
deriving DecidableEq, Repr

/-- Modelled from the spec: the fixed capacity of a `TaintedObject`
(`TaintedObject::TAINT_RANGE_LIMIT` in the repository). -/
def TAINT_RANGE_LIMIT : Nat := 100

/-- Content of a Python object, restricted to the shapes the aspects
distinguish: the three text-like types and a catch-all for any other value
(carrying its stringified form, which is all the aspects ever use of it). -/
inductive PyContent where
  | unicode (s : List Char)
  | bytes (b : List Char)
  | bytearray (b : List Char)
  | other (r : List Char)
deriving DecidableEq, Repr

/-- A Python object: an identity (models the `PyObject*` pointer), its visible
content, and the fast-taint marker bit consulted by
`is_notinterned_notfasttainted_unicode` (modelled from the spec: a cheap
per-object flag that is set whenever the object may be tainted). -/
structure PyObj where
  id : Nat
  content : PyContent
  mayBeFastTainted : Bool
deriving DecidableEq, Repr

/-- `get_pyobject_size`: length of a text-like object, 0 otherwise. -/
def get_pyobject_size : PyContent → Nat
  | .unicode s => s.length
  | .bytes b => b.length
  | .bytearray b => b.length
  | .other _ => 0

/-- `is_text`: the three text-like types recognized by the aspects. -/
def is_text : PyContent → Bool
  | .unicode _ => true
  | .bytes _ => true
  | .bytearray _ => true
  | .other _ => false

/-- `args_are_text_and_same_type`: both operands are text-like and of the same
concrete type. -/
def args_are_text_and_same_type : PyContent → PyContent → Bool
  | .unicode _, .unicode _ => true
  | .bytes _, .bytes _ => true
  | .bytearray _, .bytearray _ => true
  | _, _ => false

/-- Modelled from the spec: the fast-path check that an operand is a plain
(non-interned) unicode object carrying no fast-taint marker, i.e. certainly
untainted, so that propagation can be skipped. -/
def is_notinterned_notfasttainted_unicode (o : PyObj) : Bool :=
  match o.content with
  | .unicode _ => !o.mayBeFastTainted
  | _ => false

/-- The mutable engine state: the identity-keyed taint map plus the counters
from which fresh C++/Python object identities are drawn. -/
structure TaintState where
  map : List (Nat × TaintedObject)
  nextRid : Nat
  nextObjId : Nat
deriving DecidableEq, Repr

/-- Lookup in the identity-keyed association list. -/
def mapLookup : List (Nat × TaintedObject) → Nat → Option TaintedObject
  | [], _ => none
  | (k, v) :: rest, key => if k = key then some v else mapLookup rest key

/-- Insert-or-replace in the identity-keyed association list. -/
def mapInsert : List (Nat × TaintedObject) → Nat → TaintedObject → List (Nat × TaintedObject)
  | [], key, v => [(key, v)]
  | (k, v') :: rest, key, v =>
      if k = key then (key, v) :: rest else (k, v') :: mapInsert rest key v

/-- Modelled from the spec: `get(identity) -> optional TaintedObject`. -/
def get_tainted_object (o : PyObj) (st : TaintState) : Option TaintedObject :=
  mapLookup st.map o.id

/-- Modelled from the spec: `set(identity, TaintedObject)`; the map stores the
given (reference to the) `TaintedObject`, replacing any previous association
for the same identity. -/
def set_tainted_object (o : PyObj) (t : TaintedObject) (st : TaintState) : TaintState :=
  { st with map := mapInsert st.map o.id t }

/-- Modelled from the spec: copying ranges creates new `TaintRange` instances
(fresh `rid`s) that share only the `source` reference with the originals. -/
def copyRanges : List TaintRange → Nat → List TaintRange × Nat
  | [], n => ([], n)
  | r :: rs, n =>
      let (rest, n') := copyRanges rs (n + 1)
      ({ r with rid := n } :: rest, n')

/-- Modelled from the spec: `allocate_tainted_object_copy` builds a fresh
`TaintedObject` holding copies of the given object's ranges (empty when the
argument is null). -/
def allocate_tainted_object_copy (src? : Option TaintedObject) (st : TaintState) :
    TaintedObject × TaintState :=
  match src? with
  | none => (⟨[]⟩, st)
  | some t =>
      let (rs, n) := copyRanges t.ranges st.nextRid
      (⟨rs⟩, { st with nextRid := n })

/-- Copies of the given ranges with `start` shifted by `offset`, stopping once
`room` more ranges have been emitted; each copy is a fresh instance. -/
def shiftCopy : List TaintRange → Nat → Nat → Nat → List TaintRange × Nat
  | [], _, _, n => ([], n)
  | r :: rs, offset, room, n =>
      if room = 0 then ([], n)
      else
        let (rest, n') := shiftCopy rs offset (room - 1) (n + 1)
        ({ rid := n, start := r.start + offset, length := r.length, source := r.source } :: rest,
          n')

/-- Modelled from the spec: `TaintedObject::add_ranges_shifted` appends a copy
of every range of `other` with `start` increased by `offset`, truncating once
the `TAINT_RANGE_LIMIT` capacity of the receiver is reached. -/
def add_ranges_shifted (t other : TaintedObject) (offset : Nat) (st : TaintState) :
    TaintedObject × TaintState :=
  let room := TAINT_RANGE_LIMIT - t.ranges.length
  let (newRs, n) := shiftCopy other.ranges offset room st.nextRid
  (⟨t.ranges ++ newRs⟩, { st with nextRid := n })

/-- Modelled from the spec: `new_pyobject_id` returns an object with identical
visible content under a fresh identity. -/
def new_pyobject_id (o : PyObj) (st : TaintState) : PyObj × TaintState :=
  ({ o with id := st.nextObjId }, { st with nextObjId := st.nextObjId + 1 })

/-- `add_aspect` (AspectOperatorAdd.cpp, lines 13-55): updates the taint map
for the result of a concatenation whose value `result_o` has already been
computed, and returns the object standing for the result. -/
def add_aspect (result_o candidate_text text_to_add : PyObj) (st : TaintState) :
    PyObj × TaintState :=
  let len_candidate_text := get_pyobject_size candidate_text.content
  let len_text_to_add := get_pyobject_size text_to_add.content
  if len_text_to_add = 0 ∧ 0 < len_candidate_text then
    (candidate_text, st)
  else if 0 < len_text_to_add ∧ len_candidate_text = 0 ∧ text_to_add.id = result_o.id then
    (text_to_add, st)
  else
    match get_tainted_object candidate_text st with
    | some to_candidate_text =>
        if TAINT_RANGE_LIMIT ≤ to_candidate_text.ranges.length then
          let (res_new_id, st1) := new_pyobject_id result_o st
          (res_new_id, set_tainted_object res_new_id to_candidate_text st1)
        else
          match get_tainted_object text_to_add st with
          | none =>
              let (res_new_id, st1) := new_pyobject_id result_o st
              (res_new_id, set_tainted_object res_new_id to_candidate_text st1)
          | some to_text_to_add =>
              let (tainted, st1) := allocate_tainted_object_copy (some to_candidate_text) st
              let (tainted2, st2) := add_ranges_shifted tainted to_text_to_add len_candidate_text st1
              (result_o, set_tainted_object result_o tainted2 st2)
    | none =>
        match get_tainted_object text_to_add st with
        | none => (result_o, st)
        | some to_text_to_add =>
            let (tainted, st1) := allocate_tainted_object_copy none st
            let (tainted2, st2) := add_ranges_shifted tainted to_text_to_add len_candidate_text st1
            (result_o, set_tainted_object result_o tainted2 st2)

/-- Content-level result of Python `+` on the shapes we model: concatenation
for matching text types (and, as an inessential stand-in, for two non-text
values); `none` (a raised `TypeError`) for mixed operands. -/
def addContent : PyContent → PyContent → Option PyContent
  | .unicode x, .unicode y => some (.unicode (x ++ y))
  | .bytes x, .bytes y => some (.bytes (x ++ y))
  | .bytearray x, .bytearray y => some (.bytearray (x ++ y))
  | .other x, .other y => some (.other (x ++ y))
  | _, _ => none

/-- A freshly allocated result object for the given content. -/
def freshObj (c : PyContent) (st : TaintState) : PyObj × TaintState :=
  (⟨st.nextObjId, c, false⟩, { st with nextObjId := st.nextObjId + 1 })

/-- Modelled from the spec: the real `PyNumber_Add`.  For same-type text
operands it produces the concatenation; as in the host runtime, concatenating
with an empty `str`/`bytes` operand returns the other operand itself (same
identity), while `bytearray` concatenation always allocates a new object.
`none` models a raised error (mixed operand types). -/
def pyNumber_Add (a b : PyObj) (st : TaintState) : Option PyObj × TaintState :=
  match a.content, b.content with
  | .unicode x, .unicode y =>
      if x.length = 0 then (some b, st)
      else if y.length = 0 then (some a, st)
      else
        let (o, st') := freshObj (.unicode (x ++ y)) st
        (some o, st')
  | .bytes x, .bytes y =>
      if x.length = 0 then (some b, st)
      else if y.length = 0 then (some a, st)
      else
        let (o, st') := freshObj (.bytes (x ++ y)) st
        (some o, st')
  | .bytearray x, .bytearray y =>
      let (o, st') := freshObj (.bytearray (x ++ y)) st
      (some o, st')
  | .other x, .other y =>
      let (o, st') := freshObj (.other (x ++ y)) st
      (some o, st')
  | _, _ => (none, st)

/-- Modelled from the spec: the real `PyNumber_InPlaceAdd`; for `bytearray`
the left operand itself is extended in place and returned, otherwise it
behaves like `pyNumber_Add`. -/
def pyNumber_InPlaceAdd (a b : PyObj) (st : TaintState) : Option PyObj × TaintState :=
  match a.content, b.content with
  | .bytearray x, .bytearray y => (some { a with content := .bytearray (x ++ y) }, st)
  | _, _ => pyNumber_Add a b st

/-- `api_add_aspect` (AspectOperatorAdd.cpp, lines 71-116).  `fault` injects a
propagation failure (any C++ exception raised while computing or storing taint
ranges); `enabled` models `initializer->get_tainting_map()` returning a live
map.  Returns the resulting object (`none` = error raised by the real
addition), the final state and the diagnostic log. -/
def api_add_aspect (fault : Option String) (enabled : Bool)
    (candidate_text text_to_add : PyObj) (st : TaintState) (log : List String) :
    Option PyObj × TaintState × List String :=
  let result_o? := (pyNumber_Add candidate_text text_to_add st).1
  let st1 := (pyNumber_Add candidate_text text_to_add st).2
  if ¬enabled ∨ st1.map = [] then
    (result_o?, st1, log)
  else if ¬args_are_text_and_same_type candidate_text.content text_to_add.content then
    (result_o?, st1, log)
  else if is_notinterned_notfasttainted_unicode candidate_text
      ∧ is_notinterned_notfasttainted_unicode text_to_add then
    (result_o?, st1, log)
  else
    match fault with
    | some e => (result_o?, st1, log ++ ["IAST propagation error in add_aspect. " ++ e])
    | none =>
        match result_o? with
        | none => (none, st1, log)
        | some result_o =>
            (some (add_aspect result_o candidate_text text_to_add st1).1,
              (add_aspect result_o candidate_text text_to_add st1).2, log)

/-- `api_add_inplace_aspect` (AspectOperatorAdd.cpp, lines 118-162): identical
flow, delegating the real operation to `PyNumber_InPlaceAdd`. -/
def api_add_inplace_aspect (fault : Option String) (enabled : Bool)
    (candidate_text text_to_add : PyObj) (st : TaintState) (log : List String) :
    Option PyObj × TaintState × List String :=
  let result_o? := (pyNumber_InPlaceAdd candidate_text text_to_add st).1
  let st1 := (pyNumber_InPlaceAdd candidate_text text_to_add st).2
  if ¬enabled ∨ st1.map = [] then
    (result_o?, st1, log)
  else if ¬args_are_text_and_same_type candidate_text.content text_to_add.content then
    (result_o?, st1, log)
  else if is_notinterned_notfasttainted_unicode candidate_text
      ∧ is_notinterned_notfasttainted_unicode text_to_add then
    (result_o?, st1, log)
  else
    match fault with
    | some e => (result_o?, st1, log ++ ["IAST propagation error in add_aspect. " ++ e])
    | none =>
        match result_o? with
        | none => (none, st1, log)
        | some result_o =>
            (some (add_aspect result_o candidate_text text_to_add st1).1,
              (add_aspect result_o candidate_text text_to_add st1).2, log)

/-! ## The str aspect (AspectStr.cpp) -/

/-- Errors a call can raise, tagged with the error class and message. -/
inductive PyError where
  | typeError (msg : String)
  | valueError (msg : String)
  | lookupError (msg : String)
  | unicodeDecodeError (msg : String)
deriving DecidableEq, Repr

/-- `PyObject_Str` at the content level: a text value's characters for
`str`, the printable representation for `bytes`/`bytearray` (quoting
punctuation modelled; byte escaping is not, which only narrows the set of
concrete inputs exercised), the stringified form for anything else. -/
def pyStr : PyContent → List Char
  | .unicode s => s
  | .bytes b => 'b' :: '\'' :: (b ++ ['\''])
  | .bytearray b => "bytearray(b".toList ++ '\'' :: (b ++ ['\'', ')'])
  | .other r => r

/-- `PyObject_Str` at the object level: for an exact `str` the host runtime
returns the argument itself; otherwise a fresh `str` object is allocated. -/
def pyObjectStr (o : PyObj) (st : TaintState) : PyObj × TaintState :=
  match o.content with
  | .unicode _ => (o, st)
  | c => freshObj (.unicode (pyStr c)) st

/-- Modelled from the spec: the codec machinery behind `PyUnicode_Decode`,
restricted to the UTF-8-equivalent default.  A codec name other than utf-8
(including the empty name) fails lookup; non-ASCII input fails under the
strict-equivalent error mode and is dropped under any other mode. -/
def decodeBytes (b : List Char) (enc errs : String) : Except PyError (List Char) :=
  if enc = "utf-8" ∨ enc = "utf8" then
    if b.all (fun c => c.toNat < 128) then .ok b
    else if errs = "strict" then
      .error (.unicodeDecodeError "invalid start byte")
    else .ok (b.filter (fun c => c.toNat < 128))
  else .error (.lookupError ("unknown encoding: " ++ enc))

/-- Modelled from the spec: the un-instrumented conversion (`str(...)`) whose
value-level behavior the aspect must reproduce.  With no encoding and no
errors argument it is plain stringification; with either argument present it
decodes a bytes-like input (defaulting the codec to the UTF-8 equivalent and
the error mode to the strict equivalent), and raises the original's error on
a non-bytes input or a failed codec lookup. -/
def str_builtin (text : PyObj) (encoding errs : Option String) :
    Except PyError PyContent :=
  match encoding, errs with
  | none, none => .ok (.unicode (pyStr text.content))
  | _, _ =>
      match text.content with
      | .bytes b => (decodeBytes b (encoding.getD "utf-8") (errs.getD "strict")).map .unicode
      | .bytearray b => (decodeBytes b (encoding.getD "utf-8") (errs.getD "strict")).map .unicode
      | _ => .error (.typeError "decoding to str: need a bytes-like object")

/-- The positional argument shapes of `api_str_aspect` beyond the fixed
`orig_function`/instance slots: `nargs = 3`, `4` or `5` in the C++ signature
(`args[2]` is the value, `args[3]` the encoding, `args[4]` the errors mode).
`moreThanFive extra` stands for a call with `nargs = 6 + extra`, i.e. more
than three effective positional arguments; the aspect's nargs guard raises
before ever inspecting them, so their values are not carried.  (Calls with
`nargs < 3` are not representable: the rewriter always passes the function,
instance and value slots.) -/
inductive PosArgs where
  | one
  | two (encoding : PyObj)
  | three (encoding errs : PyObj)
  | moreThanFive (extra : Nat)
deriving DecidableEq, Repr

/-- The `nargs` of a call shape (the fixed two slots plus the effective
positional arguments). -/
def nargs_of : PosArgs → Nat
  | .one => 3
  | .two _ => 4
  | .three _ _ => 5
  | .moreThanFive extra => 6 + extra

/-- Modelled from the spec: the aspect's own wrong-parameter-count
diagnostic (`MSG_ERROR_N_PARAMS`, defined in a header outside `src/`); only
its error class (ValueError) matters to the claims, not its exact text. -/
def MSG_ERROR_N_PARAMS : String := "Incorrect number of params."


/-- The keyword-processing loop of `get_args` (AspectStr.cpp, lines 51-68):
stops as soon as the effective count exceeds 3, bumps the count for each
`encoding`/`errors` keyword (overriding the current value) and silently
ignores any other keyword. -/
def get_args_kwloop : List (String × PyObj) → Nat → Option PyObj → Option PyObj →
    Nat × Option PyObj × Option PyObj
  | [], eff, enc, err => (eff, enc, err)
  | (k, v) :: rest, eff, enc, err =>
      if 3 < eff then (eff, enc, err)
      else if k = "encoding" then get_args_kwloop rest (eff + 1) (some v) err
      else if k = "errors" then get_args_kwloop rest (eff + 1) enc (some v)
      else get_args_kwloop rest eff enc err

/-- `get_args` (AspectStr.cpp, lines 33-72): resolves the positional and
keyword arguments into the effective argument count and the encoding/errors
objects. -/
def get_args (pos : PosArgs) (kwargs : List (String × PyObj)) :
    Nat × Option PyObj × Option PyObj :=
  match pos with
  | .one => get_args_kwloop kwargs 1 none none
  | .two e => get_args_kwloop kwargs 2 (some e) none
  | .three e r => get_args_kwloop kwargs 3 (some e) (some r)
  | .moreThanFive _ => (1, none, none)
  -- The last arm is unreachable: api_str_aspect raises MSG_ERROR_N_PARAMS on
  -- its nargs guard before resolving arguments, exactly as the C++ returns
  -- before ever calling get_args; the inert value only keeps the match total.

/-- `PyUnicode_GetLength(o) > 0` as used for `has_encoding`/`has_errors`:
positive only for a non-empty `str` (on any other object the C call reports
-1, which the aspect treats the same as empty). -/
def unicodeLenPos (o : PyObj) : Bool :=
  match o.content with
  | .unicode s => decide (0 < s.length)
  | _ => false

/-- The `str` characters of an object, used only where the aspect has already
established the object is a non-empty `str`. -/
def pyObjAsStr (o : PyObj) : String :=
  match o.content with
  | .unicode s => ⟨s⟩
  | _ => ""

/-- `is_bytes_like`: `PyByteArray_Check(o) or PyBytes_Check(o)`. -/
def is_bytes_like : PyContent → Bool
  | .bytes _ => true
  | .bytearray _ => true
  | _ => false

/-- Modelled from the spec: `get_ranges` returns the tainted object's ranges
as fresh copies (each range instance is owned by exactly one
`TaintedObject`), or the empty list when the value is untainted. -/
def get_ranges (o : PyObj) (st : TaintState) : List TaintRange × TaintState :=
  match get_tainted_object o st with
  | none => ([], st)
  | some t =>
      let (rs, n) := copyRanges t.ranges st.nextRid
      (rs, { st with nextRid := n })

/-- Modelled from the spec: `set_ranges` installs the given ranges as the
value's taint record, respecting the `TAINT_RANGE_LIMIT` capacity. -/
def set_ranges (o : PyObj) (rs : List TaintRange) (st : TaintState) : TaintState :=
  set_tainted_object o ⟨rs.take TAINT_RANGE_LIMIT⟩ st

/-- `set_lengthupdated_ranges` (AspectStr.cpp, lines 4-20): rewrite every
range's length to the result's total length and install the ranges on the
result. -/
def set_lengthupdated_ranges (result : PyObj) (result_len : Nat)
    (ranges : List TaintRange) (st : TaintState) : TaintState :=
  if st.map = [] then st
  else set_ranges result (ranges.map (fun r => { r with length := result_len })) st

/-- First index at which `needle` occurs inside `hay`, as `PyUnicode_Find`
reports it (`none` = -1). -/
def strFind (hay needle : List Char) : Option Nat :=
  if needle.isPrefixOf hay then some 0
  else
    match hay with
    | [] => none
    | _ :: rest => (strFind rest needle).map (· + 1)

/-- Modelled from the spec: `copy_and_shift_ranges_from_strings` copies the
input's ranges onto the output shifted by `offset`, with each length clipped
to what fits inside the output's total length. -/
def copy_and_shift_ranges_from_strings (src dst : PyObj) (offset new_length : Nat)
    (st : TaintState) : TaintState :=
  let (rs, st1) := get_ranges src st
  set_ranges dst
    (rs.map (fun r =>
      { r with start := r.start + offset, length := min r.length (new_length - (r.start + offset)) }))
    st1

/-- `call_original_function` (AspectStr.cpp, lines 22-31): delegate to the
original `str` with the given encoding object and the errors mode defaulted
to `"strict"`. -/
def call_original_function (text : PyObj) (pyo_encoding pyo_errors : Option PyObj) :
    Except PyError PyContent :=
  str_builtin text (pyo_encoding.map pyObjAsStr) (some ((pyo_errors.map pyObjAsStr).getD "strict"))

/-- The taint-propagation block of `api_str_aspect` (AspectStr.cpp, lines
141-174), wrapped by `TRY_CATCH_ASPECT`: `fault` injects a propagation
failure, which is logged while the computed result is still returned. -/
def str_aspect_propagate (fault : Option String) (enabled : Bool) (text result_o : PyObj)
    (st : TaintState) (log : List String) : PyObj × TaintState × List String :=
  match fault with
  | some e => (result_o, st, log ++ ["IAST propagation error in str_aspect. " ++ e])
  | none =>
      if ¬enabled ∨ st.map = [] then (result_o, st, log)
      else
        let ranges := (get_ranges text st).1
        let st1 := (get_ranges text st).2
        if ranges = [] then (result_o, st1, log)
        else
          match text.content with
          | .unicode _ => (result_o, set_ranges result_o ranges st1, log)
          | _ =>
              let len_result_o := get_pyobject_size result_o.content
              let check_offset := pyStr text.content
              match strFind (pyStr result_o.content) check_offset with
              | none =>
                  (result_o, set_lengthupdated_ranges result_o len_result_o ranges st1, log)
              | some offset =>
                  (result_o,
                    copy_and_shift_ranges_from_strings text result_o offset len_result_o st1,
                    log)

/-- `api_str_aspect` (AspectStr.cpp, lines 74-175).  Returns the converted
value (or the raised error), the final state and the diagnostic log. -/
def api_str_aspect (fault : Option String) (enabled : Bool) (text : PyObj)
    (pos : PosArgs) (kwargs : List (String × PyObj)) (st : TaintState) (log : List String) :
    Except PyError PyObj × TaintState × List String :=
  if nargs_of pos < 3 ∨ 5 < nargs_of pos then
    (.error (.valueError MSG_ERROR_N_PARAMS), st, log)
  else
  let (effective_args, pyo_encoding, pyo_errors) := get_args pos kwargs
  if 3 < effective_args then
    (.error (.typeError ("str() takes at most 3 arguments ("
        ++ toString effective_args ++ " given)")), st, log)
  else
    let has_encoding := (pyo_encoding.map unicodeLenPos).getD false
    let has_errors := (pyo_errors.map unicodeLenPos).getD false
    if has_encoding ∧ ¬is_bytes_like text.content then
      (call_original_function text pyo_encoding pyo_errors |>.map (fun c => ⟨0, c, false⟩), st, log)
    else if ¬is_text text.content then
      (.ok (pyObjectStr text st).1, (pyObjectStr text st).2, log)
    else if ¬has_encoding ∧ ¬has_errors then
      let result_o := (pyObjectStr text st).1
      let st1 := (pyObjectStr text st).2
      let out := str_aspect_propagate fault enabled text result_o st1 log
      (.ok out.1, out.2)
    else
      match text.content with
      | .unicode _ => (.error (.typeError "expected bytes, str found"), st, log)
      | c =>
          let raw := match c with
            | .bytes b => b
            | .bytearray b => b
            | _ => []
          let enc := if has_encoding then pyObjAsStr (pyo_encoding.getD ⟨0, .unicode [], false⟩)
            else "utf-8"
          let errs := if has_errors then pyObjAsStr (pyo_errors.getD ⟨0, .unicode [], false⟩)
            else "strict"
          match decodeBytes raw enc errs with
          | .error e => (.error e, st, log)
          | .ok decoded =>
              let result_o := (freshObj (.unicode decoded) st).1
              let st1 := (freshObj (.unicode decoded) st).2
              let out := str_aspect_propagate fault enabled text result_o st1 log
              (.ok out.1, out.2)

/-! ## General lemmas about the embedded helpers -/

theorem mapLookup_mapInsert_self (m : List (Nat × TaintedObject)) (k : Nat) (v : TaintedObject) :
    mapLookup (mapInsert m k v) k = some v := by
  induction m with
  | nil => simp [mapInsert, mapLookup]
  | cons kv rest ih =>
      obtain ⟨k', v'⟩ := kv
      by_cases h : k' = k
      · simp [mapInsert, h, mapLookup]
      · simp [mapInsert, h, mapLookup, ih]

theorem copyRanges_fst_map {α : Type} (f : TaintRange → α)
    (hf : ∀ (r : TaintRange) (n : Nat), f { r with rid := n } = f r) :
    ∀ (rs : List TaintRange) (n : Nat), ((copyRanges rs n).1).map f = rs.map f := by
  intro rs
  induction rs with
  | nil => intro n; simp [copyRanges]
  | cons r rest ih => intro n; simp [copyRanges, hf, ih]

theorem copyRanges_vals (rs : List TaintRange) (n : Nat) :
    ((copyRanges rs n).1).map rangeVal = rs.map rangeVal :=
  copyRanges_fst_map rangeVal (fun _ _ => rfl) rs n

theorem copyRanges_length (rs : List TaintRange) (n : Nat) :
    ((copyRanges rs n).1).length = rs.length := by
  induction rs generalizing n with
  | nil => simp [copyRanges]
  | cons r rest ih => simp [copyRanges, ih]

theorem copyRanges_rid_ge (rs : List TaintRange) (n : Nat) :
    ∀ r ∈ (copyRanges rs n).1, n ≤ r.rid := by
  induction rs generalizing n with
  | nil => simp [copyRanges]
  | cons r rest ih =>
      intro r' hr'
      simp only [copyRanges, List.mem_cons] at hr'
      rcases hr' with h | h
      · subst h; exact Nat.le_refl n
      · exact Nat.le_trans (Nat.le_succ n) (ih (n + 1) r' h)

theorem copyRanges_snd (rs : List TaintRange) (n : Nat) :
    (copyRanges rs n).2 = n + rs.length := by
  induction rs generalizing n with
  | nil => simp [copyRanges]
  | cons r rest ih => simp [copyRanges, ih]; omega

theorem shiftCopy_vals (rs : List TaintRange) (offset : Nat) :
    ∀ (room n : Nat),
      ((shiftCopy rs offset room n).1).map rangeVal
        = (rs.map (fun r => (r.start + offset, r.length, r.source))).take room := by
  induction rs with
  | nil => intro room n; simp [shiftCopy]
  | cons r rest ih =>
      intro room n
      match room with
      | 0 => simp [shiftCopy]
      | room' + 1 =>
          simp [shiftCopy, rangeVal, ih room' (n + 1)]

theorem shiftCopy_rid_ge (rs : List TaintRange) (offset : Nat) :
    ∀ (room n : Nat), ∀ r ∈ (shiftCopy rs offset room n).1, n ≤ r.rid := by
  induction rs with
  | nil => intro room n; simp [shiftCopy]
  | cons r rest ih =>
      intro room n r' hr'
      match room with
      | 0 => simp [shiftCopy] at hr'
      | room' + 1 =>
          simp only [shiftCopy, if_neg (Nat.succ_ne_zero room'), List.mem_cons] at hr'
          rcases hr' with h | h
          · subst h; exact Nat.le_refl n
          · exact Nat.le_trans (Nat.le_succ n) (ih room' (n + 1) r' h)

theorem pyNumber_Add_map (a b : PyObj) (st : TaintState) :
    (pyNumber_Add a b st).2.map = st.map := by
  cases ha : a.content <;> cases hb : b.content <;>
    simp [pyNumber_Add, freshObj, ha, hb] <;> split_ifs <;> rfl

theorem pyNumber_InPlaceAdd_map (a b : PyObj) (st : TaintState) :
    (pyNumber_InPlaceAdd a b st).2.map = st.map := by
  cases ha : a.content <;> cases hb : b.content <;>
    simp [pyNumber_InPlaceAdd, pyNumber_Add, freshObj, ha, hb] <;> split_ifs <;> rfl

/-- A possibly-missing taint record is below the capacity cap. -/
def belowCap : Option TaintedObject → Prop
  | none => True
  | some t => t.ranges.length < TAINT_RANGE_LIMIT

instance instDecidableBelowCap (o : Option TaintedObject) : Decidable (belowCap o) :=
  match o with
  | none => Decidable.isTrue trivial
  | some t => inferInstanceAs (Decidable (t.ranges.length < TAINT_RANGE_LIMIT))

/-! ## Concrete example objects shared by witnesses and counterexamples -/

/-- A tainted three-character string with one range `(0,3,src 1)`. -/
def exA : PyObj := ⟨1, .unicode "abc".toList, true⟩

/-- A tainted two-character string with one range `(0,2,src 2)`. -/
def exB : PyObj := ⟨2, .unicode "de".toList, true⟩

/-- The already-computed concatenation of `exA` and `exB`. -/
def exR : PyObj := ⟨3, .unicode "abcde".toList, false⟩

/-- State tainting `exA` with `[(0,3,1)]` and `exB` with `[(0,2,2)]`. -/
def exSt : TaintState := ⟨[(1, ⟨[⟨0, 0, 3, 1⟩]⟩), (2, ⟨[⟨1, 0, 2, 2⟩]⟩)], 10, 50⟩

/-- A taint record holding `TAINT_RANGE_LIMIT - 1` ranges. -/
def ex99 : TaintedObject := ⟨(List.range 99).map (fun i => ⟨i, i, 1, 1⟩)⟩

/-- State where the left operand is one below the cap and the right holds two
ranges. -/
def exSt99 : TaintState := ⟨[(1, ex99), (2, ⟨[⟨200, 0, 1, 2⟩, ⟨201, 1, 1, 2⟩]⟩)], 300, 50⟩

/-- A taint record saturated at exactly `TAINT_RANGE_LIMIT` ranges. -/
def exFull : TaintedObject := ⟨(List.range 100).map (fun i => ⟨i, 0, 1, 5⟩)⟩

/-- An empty (zero-length) string object. -/
def exEmptyA : PyObj := ⟨1, .unicode [], true⟩

/-- A tainted one-character string. -/
def exBx : PyObj := ⟨2, .unicode "x".toList, true⟩

/-- State where the empty string `exEmptyA` carries a saturated record and
`exBx` carries one range. -/
def exStFull : TaintState := ⟨[(1, exFull), (2, ⟨[⟨500, 0, 1, 7⟩]⟩)], 600, 50⟩

/-! ## C1: concatenation with a tainted right operand -/

/-- C1, counterexample.  With the left operand's record one below the cap
(99 ranges) and a right operand carrying two ranges, the result's record is
truncated at `TAINT_RANGE_LIMIT` (100 ranges), so it does not equal the left
ranges followed by all of the right ranges shifted (101 ranges), refuting the
claim as stated. -/
theorem C1_counterexample :
    ¬ ((mapLookup (add_aspect exR exA exB exSt99).2.map (add_aspect exR exA exB exSt99).1.id).map
          (fun t => t.ranges.map rangeVal)
        = some (ex99.ranges.map rangeVal ++ [(3, 1, 2), (4, 1, 2)])) := by
  decide

/-- C1 (amended): for a concatenation of non-empty operands where the right
operand is tainted and the left operand's record (if any) is below the range
cap, the result's record is the left operand's ranges in order followed by the
right operand's ranges shifted by the left operand's length, the whole
truncated to the first `TAINT_RANGE_LIMIT` ranges. -/
theorem C1_amended (result_o a b : PyObj) (st : TaintState) (tb : TaintedObject)
    (ha : 0 < get_pyobject_size a.content) (hb : 0 < get_pyobject_size b.content)
    (htb : get_tainted_object b st = some tb)
    (hcap : belowCap (get_tainted_object a st)) :
    (add_aspect result_o a b st).1 = result_o ∧
    ∃ t, mapLookup (add_aspect result_o a b st).2.map result_o.id = some t ∧
      t.ranges.map rangeVal
        = (((get_tainted_object a st).elim [] TaintedObject.ranges).map rangeVal
            ++ tb.ranges.map (fun r => (r.start + get_pyobject_size a.content, r.length, r.source))).take
            TAINT_RANGE_LIMIT := by
  have hb' : ¬(get_pyobject_size b.content = 0 ∧ 0 < get_pyobject_size a.content) := by
    intro h; omega
  have ha' : ¬(0 < get_pyobject_size b.content ∧ get_pyobject_size a.content = 0
      ∧ b.id = result_o.id) := by
    intro h; omega
  cases hget : get_tainted_object a st with
  | none =>
      simp only [add_aspect, if_neg hb', if_neg ha', hget, htb]
      simp only [allocate_tainted_object_copy, add_ranges_shifted, set_tainted_object, hget]
      refine ⟨trivial, _, mapLookup_mapInsert_self _ _ _, ?_⟩
      simp [shiftCopy_vals]
  | some ta =>
      rw [hget] at hcap
      simp only [belowCap] at hcap
      have hcap' : ¬ TAINT_RANGE_LIMIT ≤ ta.ranges.length := by omega
      simp only [add_aspect, if_neg hb', if_neg ha', hget, htb, if_neg hcap']
      simp only [allocate_tainted_object_copy, add_ranges_shifted, set_tainted_object]
      refine ⟨trivial, _, mapLookup_mapInsert_self _ _ _, ?_⟩
      simp only [Option.elim, List.map_append, copyRanges_vals, shiftCopy_vals, copyRanges_length]
      conv_rhs => rw [List.take_append_eq_append_take]
      have hlen : (List.map rangeVal ta.ranges).length ≤ TAINT_RANGE_LIMIT := by
        rw [List.length_map]; omega
      rw [List.take_of_length_le hlen, List.length_map]

/-- C1, witness: the claim's own instance (`A` with ranges `[(0,3,src1)]` and
length 3, `B` with ranges `[(0,2,src2)]`) yields result ranges
`[(0,3,src1), (3,2,src2)]`. -/
theorem C1_witness :
    (0 < get_pyobject_size exA.content) ∧
    ((add_aspect exR exA exB exSt).1 = exR ∧
      ∃ t, mapLookup (add_aspect exR exA exB exSt).2.map exR.id = some t ∧
        t.ranges.map rangeVal = [(0, 3, 1), (3, 2, 2)]) := by
  refine ⟨by decide, ?_⟩
  obtain ⟨h1, t, h2, h3⟩ :=
    C1_amended exR exA exB exSt ⟨[⟨1, 0, 2, 2⟩]⟩ (by decide) (by decide) (by decide)
      (by decide)
  exact ⟨h1, t, h2, by rw [h3]; decide⟩

/-! ## C2: saturated left operand -/

/-- C2, counterexample.  When the left operand is an empty string whose record
is saturated and the real concatenation returned the right operand itself, the
fast path keeps the right operand's own record, so the result does not inherit
the left operand's ranges, refuting the claim as stated. -/
theorem C2_counterexample :
    (mapLookup exStFull.map exEmptyA.id).map (fun t => t.ranges.length)
        = some TAINT_RANGE_LIMIT
    ∧ (api_add_aspect none true exEmptyA exBx exStFull []).1 = some exBx
    ∧ ¬ ((mapLookup (api_add_aspect none true exEmptyA exBx exStFull []).2.1.map exBx.id).map
          (fun t => t.ranges.map rangeVal)
        = some (exFull.ranges.map rangeVal)) := by
  decide

/-- C2 (amended): for a concatenation whose non-empty left operand holds
exactly `TAINT_RANGE_LIMIT` ranges, the result's entry is exactly the left
operand's record, regardless of the right operand's taint; the empty-left
identity fast path is excluded by the non-emptiness hypothesis. -/
theorem C2_amended (result_o a b : PyObj) (st : TaintState) (ta : TaintedObject)
    (hta : get_tainted_object a st = some ta)
    (hfull : ta.ranges.length = TAINT_RANGE_LIMIT)
    (ha : 0 < get_pyobject_size a.content) :
    mapLookup (add_aspect result_o a b st).2.map (add_aspect result_o a b st).1.id = some ta := by
  by_cases hb : get_pyobject_size b.content = 0
  · have hb' : get_pyobject_size b.content = 0 ∧ 0 < get_pyobject_size a.content := ⟨hb, ha⟩
    simp only [add_aspect, if_pos hb']
    exact hta
  · have hb' : ¬(get_pyobject_size b.content = 0 ∧ 0 < get_pyobject_size a.content) := by
      intro h; exact hb h.1
    have ha' : ¬(0 < get_pyobject_size b.content ∧ get_pyobject_size a.content = 0
        ∧ b.id = result_o.id) := by
      intro h; omega
    have hsat : TAINT_RANGE_LIMIT ≤ ta.ranges.length := Nat.le_of_eq hfull.symm
    simp only [add_aspect, if_neg hb', if_neg ha', hta, if_pos hsat, new_pyobject_id,
      set_tainted_object]
    exact mapLookup_mapInsert_self _ _ _

/-- C2, witness: a non-empty left operand with a saturated record keeps
exactly its ranges on the result, here with a tainted right operand. -/
theorem C2_witness :
    (mapLookup (add_aspect exR ⟨1, .unicode "abc".toList, true⟩ exBx
        ⟨[(1, exFull), (2, ⟨[⟨500, 0, 1, 7⟩]⟩)], 600, 50⟩).2.map
      (add_aspect exR ⟨1, .unicode "abc".toList, true⟩ exBx
        ⟨[(1, exFull), (2, ⟨[⟨500, 0, 1, 7⟩]⟩)], 600, 50⟩).1.id) = some exFull :=
  C2_amended exR ⟨1, .unicode "abc".toList, true⟩ exBx
    ⟨[(1, exFull), (2, ⟨[⟨500, 0, 1, 7⟩]⟩)], 600, 50⟩ exFull (by decide) (by decide) (by decide)

/-! ## C3: empty-operand fast paths -/

/-- C3, counterexample.  With an empty left operand and a non-empty right
operand whose identity differs from the already-computed result (as happens
for `bytearray` concatenation, which always allocates a fresh result), the
aspect returns the result object, not the right operand, refuting the
symmetric fast path as stated. -/
theorem C3_counterexample :
    get_pyobject_size (PyContent.bytearray []) = 0
    ∧ 0 < get_pyobject_size (PyContent.bytearray "x".toList)
    ∧ (add_aspect ⟨3, .bytearray "x".toList, false⟩ ⟨1, .bytearray [], true⟩
          ⟨2, .bytearray "x".toList, true⟩ ⟨[(9, ⟨[⟨0, 0, 1, 1⟩]⟩)], 5, 77⟩).1
        ≠ ⟨2, .bytearray "x".toList, true⟩ := by
  decide

/-- C3 (amended): if the right operand is empty and the left non-empty, the
left operand is returned with the state untouched (so a tainted left keeps
exactly its ranges); symmetrically, if the left operand is empty and the right
non-empty, the right operand is returned only when it is the same object as
the already-computed result. -/
theorem C3_amended (result_o a b : PyObj) (st : TaintState) :
    (get_pyobject_size b.content = 0 → 0 < get_pyobject_size a.content →
      add_aspect result_o a b st = (a, st)
        ∧ mapLookup (add_aspect result_o a b st).2.map (add_aspect result_o a b st).1.id
            = mapLookup st.map a.id) ∧
    (0 < get_pyobject_size b.content → get_pyobject_size a.content = 0 → b.id = result_o.id →
      add_aspect result_o a b st = (b, st)) := by
  constructor
  · intro hb ha
    have h : get_pyobject_size b.content = 0 ∧ 0 < get_pyobject_size a.content := ⟨hb, ha⟩
    simp only [add_aspect, if_pos h]
    constructor <;> trivial
  · intro hb ha hid
    have h1 : ¬(get_pyobject_size b.content = 0 ∧ 0 < get_pyobject_size a.content) := by
      intro h; omega
    have h2 : 0 < get_pyobject_size b.content ∧ get_pyobject_size a.content = 0
        ∧ b.id = result_o.id := ⟨hb, ha, hid⟩
    simp only [add_aspect, if_neg h1, if_pos h2]

/-- C3, witness: tainted `exA` concatenated with an empty string is returned
as-is with its record intact, and an empty left with aliased right returns
the right operand. -/
theorem C3_witness :
    (add_aspect exR exA ⟨4, .unicode [], true⟩ exSt = (exA, exSt)
      ∧ mapLookup (add_aspect exR exA ⟨4, .unicode [], true⟩ exSt).2.map
          (add_aspect exR exA ⟨4, .unicode [], true⟩ exSt).1.id = mapLookup exSt.map exA.id)
    ∧ add_aspect exBx exEmptyA exBx exSt = (exBx, exSt) :=
  ⟨(C3_amended exR exA ⟨4, .unicode [], true⟩ exSt).1 (by decide) (by decide),
    (C3_amended exBx exEmptyA exBx exSt).2 (by decide) (by decide) (by decide)⟩

/-! ## C9: instance freshness of copied ranges -/

/-- A tainted two-character left operand for the left-only-tainted path. -/
def exA2 : PyObj := ⟨1, .unicode "ab".toList, true⟩

/-- An untainted right operand. -/
def exB2 : PyObj := ⟨2, .unicode "c".toList, false⟩

/-- The already-computed concatenation of `exA2` and `exB2`. -/
def exR2 : PyObj := ⟨3, .unicode "abc".toList, false⟩

/-- State tainting only `exA2`, with one range instance of identity 0. -/
def exStL : TaintState := ⟨[(1, ⟨[⟨0, 0, 2, 1⟩]⟩)], 10, 50⟩

/-- C9, counterexample.  On the only-left-tainted path the left operand's
whole `TaintedObject` is associated with the result's fresh identity, so after
the call two distinct map entries (the left operand's and the result's) hold
the very same range instance (`rid = 0`), refuting the claim that no
`TaintRange` instance is ever shared between the records of two distinct map
entries. -/
theorem C9_counterexample :
    mapLookup (add_aspect exR2 exA2 exB2 exStL).2.map exA2.id = some ⟨[⟨0, 0, 2, 1⟩]⟩
    ∧ mapLookup (add_aspect exR2 exA2 exB2 exStL).2.map (add_aspect exR2 exA2 exB2 exStL).1.id
        = some ⟨[⟨0, 0, 2, 1⟩]⟩
    ∧ (add_aspect exR2 exA2 exB2 exStL).1.id ≠ exA2.id := by
  decide

/-- C9 (amended): on the combining path (right operand tainted, left below
the cap, both operands non-empty) the result's record is built from fresh
`TaintRange` instances only: no instance of the result's record occurs in any
record that was in the map before the call.  On the left-only-tainted and
saturated-left paths the left operand's record itself is reused for the
result's entry, so instances are shared between those two entries. -/
theorem C9_amended (result_o a b : PyObj) (st : TaintState) (tb : TaintedObject)
    (ha : 0 < get_pyobject_size a.content) (hb : 0 < get_pyobject_size b.content)
    (htb : get_tainted_object b st = some tb)
    (hcap : belowCap (get_tainted_object a st))
    (hwf : ∀ kv ∈ st.map, ∀ r ∈ kv.2.ranges, r.rid < st.nextRid) :
    ∃ t, mapLookup (add_aspect result_o a b st).2.map result_o.id = some t ∧
      ∀ r' ∈ t.ranges, ∀ kv ∈ st.map, ∀ r0 ∈ kv.2.ranges, r'.rid ≠ r0.rid := by
  have hb' : ¬(get_pyobject_size b.content = 0 ∧ 0 < get_pyobject_size a.content) := by
    intro h; omega
  have ha' : ¬(0 < get_pyobject_size b.content ∧ get_pyobject_size a.content = 0
      ∧ b.id = result_o.id) := by
    intro h; omega
  cases hget : get_tainted_object a st with
  | none =>
      simp only [add_aspect, if_neg hb', if_neg ha', hget, htb]
      simp only [allocate_tainted_object_copy, add_ranges_shifted, set_tainted_object]
      refine ⟨_, mapLookup_mapInsert_self _ _ _, ?_⟩
      intro r' hr' kv hkv r0 hr0
      have h1 : st.nextRid ≤ r'.rid := by
        simp only [List.nil_append] at hr'
        exact shiftCopy_rid_ge tb.ranges _ _ _ r' hr'
      have h2 : r0.rid < st.nextRid := hwf kv hkv r0 hr0
      omega
  | some ta =>
      rw [hget] at hcap
      simp only [belowCap] at hcap
      have hcap' : ¬ TAINT_RANGE_LIMIT ≤ ta.ranges.length := by omega
      simp only [add_aspect, if_neg hb', if_neg ha', hget, htb, if_neg hcap']
      simp only [allocate_tainted_object_copy, add_ranges_shifted, set_tainted_object]
      refine ⟨_, mapLookup_mapInsert_self _ _ _, ?_⟩
      intro r' hr' kv hkv r0 hr0
      have h2 : r0.rid < st.nextRid := hwf kv hkv r0 hr0
      have h1 : st.nextRid ≤ r'.rid := by
        rcases List.mem_append.mp hr' with h | h
        · exact copyRanges_rid_ge ta.ranges st.nextRid r' h
        · have := shiftCopy_rid_ge tb.ranges (get_pyobject_size a.content) _ _ r' h
          rw [copyRanges_snd] at this
          omega
      omega

/-- C9, witness: on the combining path for `exA`/`exB`, no instance of the
result's record occurs in any record present before the call. -/
theorem C9_witness :
    ∃ t, mapLookup (add_aspect exR exA exB exSt).2.map exR.id = some t ∧
      ∀ r' ∈ t.ranges, ∀ kv ∈ exSt.map, ∀ r0 ∈ kv.2.ranges, r'.rid ≠ r0.rid :=
  C9_amended exR exA exB exSt ⟨[⟨1, 0, 2, 2⟩]⟩ (by decide) (by decide) (by decide) (by decide)
    (by decide)

/-! ## C10: propagation gating in the api entry points -/

/-- C10: the add aspect entry points propagate taint only for same-type
text-like operands that may be tainted: for mixed or non-text operands, and
when both operands pass the certainly-untainted fast check, the real
addition's result is returned unchanged and the taint map is left untouched
(even if an operand had taint ranges). -/
theorem C10_theorem (fault : Option String) (enabled : Bool) (a b : PyObj)
    (st : TaintState) (log : List String) :
    (args_are_text_and_same_type a.content b.content = false →
      api_add_aspect fault enabled a b st log
          = ((pyNumber_Add a b st).1, (pyNumber_Add a b st).2, log)
        ∧ api_add_inplace_aspect fault enabled a b st log
          = ((pyNumber_InPlaceAdd a b st).1, (pyNumber_InPlaceAdd a b st).2, log)
        ∧ (pyNumber_Add a b st).2.map = st.map
        ∧ (pyNumber_InPlaceAdd a b st).2.map = st.map) ∧
    (is_notinterned_notfasttainted_unicode a = true →
      is_notinterned_notfasttainted_unicode b = true →
      api_add_aspect fault enabled a b st log
          = ((pyNumber_Add a b st).1, (pyNumber_Add a b st).2, log)
        ∧ (pyNumber_Add a b st).2.map = st.map) := by
  rcases hpy : pyNumber_Add a b st with ⟨r1, st1⟩
  rcases hpy2 : pyNumber_InPlaceAdd a b st with ⟨r2, st2⟩
  constructor
  · intro h
    refine ⟨?_, ?_, ?_, ?_⟩
    · simp [api_add_aspect, hpy, h]
    · simp [api_add_inplace_aspect, hpy2, h]
    · have := pyNumber_Add_map a b st; rw [hpy] at this; exact this
    · have := pyNumber_InPlaceAdd_map a b st; rw [hpy2] at this; exact this
  · intro ha hb
    constructor
    · simp [api_add_aspect, hpy, ha, hb]
    · have := pyNumber_Add_map a b st; rw [hpy] at this; exact this

/-- C10, witness: a `str`/`bytes` mixed pair is returned from the real
addition with the map untouched even though the left operand is tainted, and
a pair of certainly-untainted strings takes the fast skip. -/
theorem C10_witness :
    (api_add_aspect none true exA ⟨2, .bytes "de".toList, true⟩ exSt []
        = ((pyNumber_Add exA ⟨2, .bytes "de".toList, true⟩ exSt).1,
            (pyNumber_Add exA ⟨2, .bytes "de".toList, true⟩ exSt).2, [])
      ∧ api_add_inplace_aspect none true exA ⟨2, .bytes "de".toList, true⟩ exSt []
        = ((pyNumber_InPlaceAdd exA ⟨2, .bytes "de".toList, true⟩ exSt).1,
            (pyNumber_InPlaceAdd exA ⟨2, .bytes "de".toList, true⟩ exSt).2, [])
      ∧ (pyNumber_Add exA ⟨2, .bytes "de".toList, true⟩ exSt).2.map = exSt.map
      ∧ (pyNumber_InPlaceAdd exA ⟨2, .bytes "de".toList, true⟩ exSt).2.map = exSt.map)
    ∧ (api_add_aspect none true ⟨7, .unicode "a".toList, false⟩ ⟨8, .unicode "b".toList, false⟩
          exSt []
        = ((pyNumber_Add ⟨7, .unicode "a".toList, false⟩ ⟨8, .unicode "b".toList, false⟩ exSt).1,
            (pyNumber_Add ⟨7, .unicode "a".toList, false⟩ ⟨8, .unicode "b".toList, false⟩ exSt).2,
            [])
      ∧ (pyNumber_Add ⟨7, .unicode "a".toList, false⟩ ⟨8, .unicode "b".toList, false⟩
          exSt).2.map = exSt.map) :=
  ⟨(C10_theorem none true exA ⟨2, .bytes "de".toList, true⟩ exSt []).1 (by decide),
    (C10_theorem none true ⟨7, .unicode "a".toList, false⟩ ⟨8, .unicode "b".toList, false⟩
      exSt []).2 (by decide) (by decide)⟩

/-! ## Lemmas about the aspect flows -/

theorem str_aspect_propagate_fst (fault : Option String) (enabled : Bool)
    (text result_o : PyObj) (st : TaintState) (log : List String) :
    (str_aspect_propagate fault enabled text result_o st log).1 = result_o := by
  cases fault with
  | some e => rfl
  | none =>
      by_cases h1 : (¬enabled = true ∨ st.map = [])
      · simp only [str_aspect_propagate]
        rw [if_pos h1]
      · simp only [str_aspect_propagate, if_neg h1]
        by_cases h2 : (get_ranges text st).1 = []
        · simp [h2]
        · simp only [if_neg h2]
          cases htext : text.content with
          | unicode s => rfl
          | bytes bb =>
              cases strFind (pyStr result_o.content) (pyStr (PyContent.bytes bb)) <;> rfl
          | bytearray bb =>
              cases strFind (pyStr result_o.content) (pyStr (PyContent.bytearray bb)) <;> rfl
          | other rr =>
              cases strFind (pyStr result_o.content) (pyStr (PyContent.other rr)) <;> rfl

theorem pyNumber_Add_val (a b : PyObj) (st : TaintState)
    (h : args_are_text_and_same_type a.content b.content = true) :
    ∃ r, (pyNumber_Add a b st).1 = some r ∧ some r.content = addContent a.content b.content := by
  cases ha : a.content with
  | unicode x =>
      cases hb : b.content with
      | unicode y =>
          simp only [pyNumber_Add, addContent, freshObj, ha, hb]
          by_cases h1 : x.length = 0
          · rw [List.length_eq_zero] at h1
            subst h1
            exact ⟨b, by simp, by rw [hb]; simp⟩
          · by_cases h2 : y.length = 0
            · rw [List.length_eq_zero] at h2
              subst h2
              exact ⟨a, by simp [h1], by rw [ha]; simp⟩
            · exact ⟨⟨st.nextObjId, .unicode (x ++ y), false⟩, by simp [h1, h2], rfl⟩
      | bytes y => rw [ha, hb] at h; exact absurd h (by simp [args_are_text_and_same_type])
      | bytearray y => rw [ha, hb] at h; exact absurd h (by simp [args_are_text_and_same_type])
      | other y => rw [ha, hb] at h; exact absurd h (by simp [args_are_text_and_same_type])
  | bytes x =>
      cases hb : b.content with
      | bytes y =>
          simp only [pyNumber_Add, addContent, freshObj, ha, hb]
          by_cases h1 : x.length = 0
          · rw [List.length_eq_zero] at h1
            subst h1
            exact ⟨b, by simp, by rw [hb]; simp⟩
          · by_cases h2 : y.length = 0
            · rw [List.length_eq_zero] at h2
              subst h2
              exact ⟨a, by simp [h1], by rw [ha]; simp⟩
            · exact ⟨⟨st.nextObjId, .bytes (x ++ y), false⟩, by simp [h1, h2], rfl⟩
      | unicode y => rw [ha, hb] at h; exact absurd h (by simp [args_are_text_and_same_type])
      | bytearray y => rw [ha, hb] at h; exact absurd h (by simp [args_are_text_and_same_type])
      | other y => rw [ha, hb] at h; exact absurd h (by simp [args_are_text_and_same_type])
  | bytearray x =>
      cases hb : b.content with
      | bytearray y =>
          simp only [pyNumber_Add, addContent, freshObj, ha, hb]
          exact ⟨⟨st.nextObjId, .bytearray (x ++ y), false⟩, rfl, rfl⟩
      | unicode y => rw [ha, hb] at h; exact absurd h (by simp [args_are_text_and_same_type])
      | bytes y => rw [ha, hb] at h; exact absurd h (by simp [args_are_text_and_same_type])
      | other y => rw [ha, hb] at h; exact absurd h (by simp [args_are_text_and_same_type])
  | other x =>
      rw [ha] at h
      cases hb : b.content <;> rw [hb] at h <;>
        exact absurd h (by simp [args_are_text_and_same_type])

theorem add_aspect_fst_content (result_o a b : PyObj) (st : TaintState)
    (h : args_are_text_and_same_type a.content b.content = true)
    (hr : some result_o.content = addContent a.content b.content) :
    (add_aspect result_o a b st).1.content = result_o.content := by
  have fact1 : get_pyobject_size b.content = 0 → a.content = result_o.content := by
    intro hb0
    cases hac : a.content with
    | unicode x =>
        cases hbc : b.content with
        | unicode y =>
            rw [hbc] at hb0
            simp only [get_pyobject_size] at hb0
            rw [List.length_eq_zero] at hb0
            subst hb0
            rw [hac, hbc] at hr
            simp only [addContent, List.append_nil, Option.some.injEq] at hr
            rw [hr]
        | bytes y => rw [hac, hbc] at h; exact absurd h (by simp [args_are_text_and_same_type])
        | bytearray y => rw [hac, hbc] at h; exact absurd h (by simp [args_are_text_and_same_type])
        | other y => rw [hac, hbc] at h; exact absurd h (by simp [args_are_text_and_same_type])
    | bytes x =>
        cases hbc : b.content with
        | bytes y =>
            rw [hbc] at hb0
            simp only [get_pyobject_size] at hb0
            rw [List.length_eq_zero] at hb0
            subst hb0
            rw [hac, hbc] at hr
            simp only [addContent, List.append_nil, Option.some.injEq] at hr
            rw [hr]
        | unicode y => rw [hac, hbc] at h; exact absurd h (by simp [args_are_text_and_same_type])
        | bytearray y => rw [hac, hbc] at h; exact absurd h (by simp [args_are_text_and_same_type])
        | other y => rw [hac, hbc] at h; exact absurd h (by simp [args_are_text_and_same_type])
    | bytearray x =>
        cases hbc : b.content with
        | bytearray y =>
            rw [hbc] at hb0
            simp only [get_pyobject_size] at hb0
            rw [List.length_eq_zero] at hb0
            subst hb0
            rw [hac, hbc] at hr
            simp only [addContent, List.append_nil, Option.some.injEq] at hr
            rw [hr]
        | unicode y => rw [hac, hbc] at h; exact absurd h (by simp [args_are_text_and_same_type])
        | bytes y => rw [hac, hbc] at h; exact absurd h (by simp [args_are_text_and_same_type])
        | other y => rw [hac, hbc] at h; exact absurd h (by simp [args_are_text_and_same_type])
    | other x =>
        rw [hac] at h
        cases hbc : b.content <;> rw [hbc] at h <;>
          exact absurd h (by simp [args_are_text_and_same_type])
  have fact2 : get_pyobject_size a.content = 0 → b.content = result_o.content := by
    intro ha0
    cases hac : a.content with
    | unicode x =>
        cases hbc : b.content with
        | unicode y =>
            rw [hac] at ha0
            simp only [get_pyobject_size] at ha0
            rw [List.length_eq_zero] at ha0
            subst ha0
            rw [hac, hbc] at hr
            simp only [addContent, List.nil_append, Option.some.injEq] at hr
            rw [hr]
        | bytes y => rw [hac, hbc] at h; exact absurd h (by simp [args_are_text_and_same_type])
        | bytearray y => rw [hac, hbc] at h; exact absurd h (by simp [args_are_text_and_same_type])
        | other y => rw [hac, hbc] at h; exact absurd h (by simp [args_are_text_and_same_type])
    | bytes x =>
        cases hbc : b.content with
        | bytes y =>
            rw [hac] at ha0
            simp only [get_pyobject_size] at ha0
            rw [List.length_eq_zero] at ha0
            subst ha0
            rw [hac, hbc] at hr
            simp only [addContent, List.nil_append, Option.some.injEq] at hr
            rw [hr]
        | unicode y => rw [hac, hbc] at h; exact absurd h (by simp [args_are_text_and_same_type])
        | bytearray y => rw [hac, hbc] at h; exact absurd h (by simp [args_are_text_and_same_type])
        | other y => rw [hac, hbc] at h; exact absurd h (by simp [args_are_text_and_same_type])
    | bytearray x =>
        cases hbc : b.content with
        | bytearray y =>
            rw [hac] at ha0
            simp only [get_pyobject_size] at ha0
            rw [List.length_eq_zero] at ha0
            subst ha0
            rw [hac, hbc] at hr
            simp only [addContent, List.nil_append, Option.some.injEq] at hr
            rw [hr]
        | unicode y => rw [hac, hbc] at h; exact absurd h (by simp [args_are_text_and_same_type])
        | bytes y => rw [hac, hbc] at h; exact absurd h (by simp [args_are_text_and_same_type])
        | other y => rw [hac, hbc] at h; exact absurd h (by simp [args_are_text_and_same_type])
    | other x =>
        rw [hac] at h
        cases hbc : b.content <;> rw [hbc] at h <;>
          exact absurd h (by simp [args_are_text_and_same_type])
  simp only [add_aspect]
  split_ifs with h1 h2
  · exact fact1 h1.1
  · exact fact2 h2.2.1
  · cases hg : get_tainted_object a st with
    | some ta =>
        by_cases hsat : TAINT_RANGE_LIMIT ≤ ta.ranges.length
        · simp [hsat, new_pyobject_id]
        · simp only [if_neg hsat]
          cases hg2 : get_tainted_object b st with
          | none => simp [new_pyobject_id]
          | some tb => simp
    | none =>
        cases hg2 : get_tainted_object b st with
        | none => simp
        | some tb => simp

/-! ## C5: propagation failures fail open -/

/-- C5: a fault raised while computing or storing taint ranges, after the real
operation has produced its result, is caught at the aspect boundary: the add
aspect logs the failure and still returns the real addition's result with the
taint map untouched (the result stays untainted), and the str aspect logs the
failure and still returns the computed conversion with the state untouched. -/
theorem C5_theorem (e : String) (a b text : PyObj) (st stq : TaintState)
    (log logq : List String) (s : List Char)
    (hmap : st.map ≠ [])
    (htype : args_are_text_and_same_type a.content b.content = true)
    (hfast : ¬(is_notinterned_notfasttainted_unicode a = true
        ∧ is_notinterned_notfasttainted_unicode b = true))
    (htext : text.content = .unicode s) :
    (api_add_aspect (some e) true a b st log
        = ((pyNumber_Add a b st).1, (pyNumber_Add a b st).2,
            log ++ ["IAST propagation error in add_aspect. " ++ e])
      ∧ (pyNumber_Add a b st).2.map = st.map)
    ∧ api_str_aspect (some e) true text .one [] stq logq
        = (.ok text, stq, logq ++ ["IAST propagation error in str_aspect. " ++ e]) := by
  have hm : (pyNumber_Add a b st).2.map = st.map := pyNumber_Add_map a b st
  refine ⟨⟨?_, hm⟩, ?_⟩
  · simp [api_add_aspect, hm, hmap, htype, hfast]
  · simp [api_str_aspect, nargs_of, get_args, get_args_kwloop, pyObjectStr, htext, is_text,
      str_aspect_propagate]

/-- C5, witness: a concrete fault on tainted operands is logged, and the real
results are returned with no taint entry. -/
theorem C5_witness :
    ((api_add_aspect (some "boom") true exA exB exSt []
        = ((pyNumber_Add exA exB exSt).1, (pyNumber_Add exA exB exSt).2,
            ["IAST propagation error in add_aspect. boom"])
      ∧ (pyNumber_Add exA exB exSt).2.map = exSt.map)
    ∧ api_str_aspect (some "boom") true exA .one [] exSt []
        = (.ok exA, exSt, ["IAST propagation error in str_aspect. boom"])) :=
  C5_theorem "boom" exA exB exA exSt exSt [] [] "abc".toList (by decide) (by decide)
    (by decide) (by decide)

/-! ## C4: value-level refinement of the aspects -/

/-- C4, counterexample.  For `str(b"a", "")` (an empty encoding string given
positionally) the aspect treats the encoding as absent and returns the plain
stringification `"b'a'"`, while the un-instrumented operation performs a codec
lookup of the empty name and raises; the returned contents are therefore not
byte-for-byte identical to the original's behavior, refuting the claim as
stated. -/
theorem C4_counterexample :
    (api_str_aspect none true ⟨0, .bytes ['a'], true⟩
          (.two ⟨1, .unicode [], false⟩) [] ⟨[], 0, 10⟩ []).1
        = .ok ⟨10, .unicode ('b' :: '\'' :: 'a' :: '\'' :: []), false⟩
    ∧ str_builtin ⟨0, .bytes ['a'], true⟩ (some "") none
        = .error (.lookupError "unknown encoding: ") := by
  constructor
  · rfl
  · rfl

/-- C4 (amended): the add aspect always (for every operand pair) returns
exactly what the real addition produces: the same raised error, or a value
with byte-for-byte the same content.  The str aspect reproduces the original
conversion's value-level behavior exactly when no encoding/errors arguments
are supplied (on any input), and on bytes-like inputs with non-empty encoding
(and optionally non-empty errors) strings — whether the codec is valid or not,
value and error alike are the original's; only an empty encoding or errors
string is treated as absent, diverging from the original on such calls (and
the out-of-range-nargs guard raises the aspect's own error, see C8). -/
theorem C4_amended :
    (∀ (fault : Option String) (enabled : Bool) (a b : PyObj) (st : TaintState)
        (log : List String),
      ((api_add_aspect fault enabled a b st log).1).map PyObj.content
        = ((pyNumber_Add a b st).1).map PyObj.content) ∧
    (∀ (fault : Option String) (enabled : Bool) (text : PyObj) (st : TaintState)
        (log : List String),
      ∃ r, (api_str_aspect fault enabled text .one [] st log).1 = .ok r
        ∧ r.content = .unicode (pyStr text.content)
        ∧ str_builtin text none none = .ok (.unicode (pyStr text.content))) ∧
    (∀ (fault : Option String) (enabled : Bool) (text e : PyObj) (st : TaintState)
        (log : List String),
      is_bytes_like text.content = true → unicodeLenPos e = true →
      ((api_str_aspect fault enabled text (.two e) [] st log).1).map PyObj.content
        = str_builtin text (some (pyObjAsStr e)) none) ∧
    (∀ (fault : Option String) (enabled : Bool) (text e r : PyObj) (st : TaintState)
        (log : List String),
      is_bytes_like text.content = true → unicodeLenPos e = true → unicodeLenPos r = true →
      ((api_str_aspect fault enabled text (.three e r) [] st log).1).map PyObj.content
        = str_builtin text (some (pyObjAsStr e)) (some (pyObjAsStr r))) := by
  refine ⟨?_, ?_, ?_, ?_⟩
  · intro fault enabled a b st log
    rcases hpy : pyNumber_Add a b st with ⟨rr, st1⟩
    simp only [api_add_aspect, hpy]
    by_cases h1 : (¬enabled = true ∨ st1.map = [])
    · rw [if_pos h1]
    · rw [if_neg h1]
      by_cases h2 : ¬args_are_text_and_same_type a.content b.content = true
      · rw [if_pos h2]
      · rw [if_neg h2]
        rw [not_not] at h2
        by_cases h3 : (is_notinterned_notfasttainted_unicode a = true
            ∧ is_notinterned_notfasttainted_unicode b = true)
        · rw [if_pos h3]
        · rw [if_neg h3]
          cases fault with
          | some e => rfl
          | none =>
              cases hrr : rr with
              | none => rfl
              | some result_o =>
                  obtain ⟨r0, hr0, hc⟩ := pyNumber_Add_val a b st h2
                  rw [hpy] at hr0
                  have hr0' : some result_o = some r0 := by rw [← hrr]; exact hr0
                  have hre : result_o = r0 := Option.some.inj hr0'
                  exact congrArg some
                    (add_aspect_fst_content result_o a b st1 h2 (by rw [hre]; exact hc))
  · intro fault enabled text st log
    cases htext : text.content with
    | unicode s =>
        refine ⟨text, ?_, by simp [htext, pyStr], by simp [str_builtin, htext]⟩
        simp [api_str_aspect, nargs_of, get_args, get_args_kwloop, pyObjectStr, htext,
          is_text, str_aspect_propagate_fst]
    | bytes bb =>
        refine ⟨⟨st.nextObjId, .unicode (pyStr (.bytes bb)), false⟩, ?_, rfl,
          by simp [str_builtin, htext]⟩
        simp [api_str_aspect, nargs_of, get_args, get_args_kwloop, pyObjectStr, htext,
          is_text, str_aspect_propagate_fst, freshObj]
    | bytearray bb =>
        refine ⟨⟨st.nextObjId, .unicode (pyStr (.bytearray bb)), false⟩, ?_, rfl,
          by simp [str_builtin, htext]⟩
        simp [api_str_aspect, nargs_of, get_args, get_args_kwloop, pyObjectStr, htext,
          is_text, str_aspect_propagate_fst, freshObj]
    | other rr =>
        refine ⟨⟨st.nextObjId, .unicode (pyStr (.other rr)), false⟩, ?_, rfl,
          by simp [str_builtin, htext]⟩
        simp [api_str_aspect, nargs_of, get_args, get_args_kwloop, pyObjectStr, htext,
          is_text, str_aspect_propagate_fst, freshObj]
  · intro fault enabled text e st log hbytes henc
    cases htext : text.content with
    | unicode s => rw [htext] at hbytes; simp [is_bytes_like] at hbytes
    | other rr => rw [htext] at hbytes; simp [is_bytes_like] at hbytes
    | bytes bb =>
        cases hdec : decodeBytes bb (pyObjAsStr e) "strict" with
        | error err =>
            simp [api_str_aspect, nargs_of, get_args, get_args_kwloop, henc, htext,
              is_bytes_like, is_text, hdec, str_builtin, Except.map]
        | ok decoded =>
            simp [api_str_aspect, nargs_of, get_args, get_args_kwloop, henc, htext,
              is_bytes_like, is_text, hdec, str_builtin, freshObj, str_aspect_propagate_fst,
              Except.map]
    | bytearray bb =>
        cases hdec : decodeBytes bb (pyObjAsStr e) "strict" with
        | error err =>
            simp [api_str_aspect, nargs_of, get_args, get_args_kwloop, henc, htext,
              is_bytes_like, is_text, hdec, str_builtin, Except.map]
        | ok decoded =>
            simp [api_str_aspect, nargs_of, get_args, get_args_kwloop, henc, htext,
              is_bytes_like, is_text, hdec, str_builtin, freshObj, str_aspect_propagate_fst,
              Except.map]
  · intro fault enabled text e r st log hbytes henc herr
    cases htext : text.content with
    | unicode s => rw [htext] at hbytes; simp [is_bytes_like] at hbytes
    | other rr => rw [htext] at hbytes; simp [is_bytes_like] at hbytes
    | bytes bb =>
        cases hdec : decodeBytes bb (pyObjAsStr e) (pyObjAsStr r) with
        | error err =>
            simp [api_str_aspect, nargs_of, get_args, get_args_kwloop, henc, herr, htext,
              is_bytes_like, is_text, hdec, str_builtin, Except.map]
        | ok decoded =>
            simp [api_str_aspect, nargs_of, get_args, get_args_kwloop, henc, herr, htext,
              is_bytes_like, is_text, hdec, str_builtin, freshObj, str_aspect_propagate_fst,
              Except.map]
    | bytearray bb =>
        cases hdec : decodeBytes bb (pyObjAsStr e) (pyObjAsStr r) with
        | error err =>
            simp [api_str_aspect, nargs_of, get_args, get_args_kwloop, henc, herr, htext,
              is_bytes_like, is_text, hdec, str_builtin, Except.map]
        | ok decoded =>
            simp [api_str_aspect, nargs_of, get_args, get_args_kwloop, henc, herr, htext,
              is_bytes_like, is_text, hdec, str_builtin, freshObj, str_aspect_propagate_fst,
              Except.map]

/-- C4, witness: concrete instances of every clause: a mixed-type addition
propagating the real operation's outcome, a no-arguments str call returning
the original conversion's value, and bytes decodes with an encoding (and an
errors mode) reproducing the original decode. -/
theorem C4_witness :
    (((api_add_aspect none true exA ⟨2, .bytes "de".toList, true⟩ exSt []).1).map PyObj.content
        = ((pyNumber_Add exA ⟨2, .bytes "de".toList, true⟩ exSt).1).map PyObj.content)
    ∧ (∃ r, (api_str_aspect none true exA .one [] exSt []).1 = .ok r
        ∧ r.content = .unicode (pyStr exA.content)
        ∧ str_builtin exA none none = .ok (.unicode (pyStr exA.content)))
    ∧ (((api_str_aspect none true ⟨1, .bytes "abc".toList, true⟩
          (.two ⟨9, .unicode "utf-8".toList, false⟩) [] exSt []).1).map PyObj.content
        = str_builtin ⟨1, .bytes "abc".toList, true⟩
            (some (pyObjAsStr ⟨9, .unicode "utf-8".toList, false⟩)) none)
    ∧ (((api_str_aspect none true ⟨1, .bytes "abc".toList, true⟩
          (.three ⟨9, .unicode "utf-8".toList, false⟩ ⟨8, .unicode "ignore".toList, false⟩)
          [] exSt []).1).map PyObj.content
        = str_builtin ⟨1, .bytes "abc".toList, true⟩
            (some (pyObjAsStr ⟨9, .unicode "utf-8".toList, false⟩))
            (some (pyObjAsStr ⟨8, .unicode "ignore".toList, false⟩))) :=
  ⟨C4_amended.1 none true exA ⟨2, .bytes "de".toList, true⟩ exSt [],
    C4_amended.2.1 none true exA exSt [],
    C4_amended.2.2.1 none true ⟨1, .bytes "abc".toList, true⟩
      ⟨9, .unicode "utf-8".toList, false⟩ exSt [] (by decide) (by decide),
    C4_amended.2.2.2 none true ⟨1, .bytes "abc".toList, true⟩
      ⟨9, .unicode "utf-8".toList, false⟩ ⟨8, .unicode "ignore".toList, false⟩ exSt []
      (by decide) (by decide) (by decide)⟩

/-! ## C6: text-to-text round trip preserves ranges -/

/-- C6: converting a tainted already-text value with no encoding or errors
arguments returns the value itself, and the output's taint ranges equal the
input's ranges exactly (same starts, lengths and sources, no shift). -/
theorem C6_theorem (text : PyObj) (st : TaintState) (log : List String)
    (s : List Char) (t : TaintedObject)
    (htext : text.content = .unicode s)
    (hget : get_tainted_object text st = some t)
    (hne : t.ranges ≠ [])
    (hcap : t.ranges.length ≤ TAINT_RANGE_LIMIT)
    (hmap : st.map ≠ []) :
    (api_str_aspect none true text .one [] st log).1 = .ok text
    ∧ ∃ t', mapLookup (api_str_aspect none true text .one [] st log).2.1.map text.id = some t'
        ∧ t'.ranges.map rangeVal = t.ranges.map rangeVal := by
  have hgr : get_ranges text st
      = ((copyRanges t.ranges st.nextRid).1,
          { st with nextRid := (copyRanges t.ranges st.nextRid).2 }) := by
    simp [get_ranges, hget]
  have hcop : (copyRanges t.ranges st.nextRid).1 ≠ [] := by
    intro hc
    apply hne
    have hl := copyRanges_length t.ranges st.nextRid
    rw [hc] at hl
    exact List.length_eq_zero.mp hl.symm
  have hprop : str_aspect_propagate none true text text st log
      = (text,
          set_ranges text (copyRanges t.ranges st.nextRid).1
            { st with nextRid := (copyRanges t.ranges st.nextRid).2 },
          log) := by
    simp only [str_aspect_propagate, hgr]
    rw [if_neg (by simp [hmap])]
    rw [if_neg hcop]
    rw [htext]
  have hapi : api_str_aspect none true text .one [] st log
      = (.ok (str_aspect_propagate none true text text st log).1,
          (str_aspect_propagate none true text text st log).2) := by
    simp [api_str_aspect, nargs_of, get_args, get_args_kwloop, pyObjectStr, htext, is_text]
  rw [hapi, hprop]
  refine ⟨rfl, ⟨(copyRanges t.ranges st.nextRid).1.take TAINT_RANGE_LIMIT⟩, ?_, ?_⟩
  · exact mapLookup_mapInsert_self _ _ _
  · have htake : ((copyRanges t.ranges st.nextRid).1).take TAINT_RANGE_LIMIT
        = (copyRanges t.ranges st.nextRid).1 :=
      List.take_of_length_le (by rw [copyRanges_length]; exact hcap)
    rw [htake]
    exact copyRanges_vals t.ranges st.nextRid

/-- C6, witness: a tainted three-character string keeps its single range
`(0,3,1)` across the conversion. -/
theorem C6_witness :
    ((api_str_aspect none true exA .one [] exSt []).1 = .ok exA
    ∧ ∃ t', mapLookup (api_str_aspect none true exA .one [] exSt []).2.1.map exA.id = some t'
        ∧ t'.ranges.map rangeVal = ([⟨0, 0, 3, 1⟩] : List TaintRange).map rangeVal) :=
  C6_theorem exA exSt [] "abc".toList ⟨[⟨0, 0, 3, 1⟩]⟩ (by decide) (by decide) (by decide)
    (by decide) (by decide)

/-! ## C7: decode fallback rewrites lengths to the output length -/

/-- C7: decoding a tainted bytes value whose stringified form cannot be
located inside the decoded output installs, on the output, a straight copy of
the input's ranges with every length rewritten to the output's total length
(starts and sources unchanged, order preserved). -/
theorem C7_theorem (text e : PyObj) (st : TaintState) (log : List String)
    (bb es decoded : List Char) (t : TaintedObject)
    (htext : text.content = .bytes bb)
    (henc : e.content = .unicode es) (hes : es ≠ [])
    (hdec : decodeBytes bb (pyObjAsStr e) "strict" = .ok decoded)
    (hfind : strFind decoded (pyStr (.bytes bb)) = none)
    (hget : get_tainted_object text st = some t)
    (hne : t.ranges ≠ [])
    (hcap : t.ranges.length ≤ TAINT_RANGE_LIMIT)
    (hmap : st.map ≠ []) :
    ∃ r, (api_str_aspect none true text (.two e) [] st log).1 = .ok r
      ∧ r.content = .unicode decoded
      ∧ ∃ t', mapLookup (api_str_aspect none true text (.two e) [] st log).2.1.map r.id
            = some t'
        ∧ t'.ranges.map rangeVal
            = t.ranges.map (fun rg => (rg.start, decoded.length, rg.source)) := by
  have henclen : unicodeLenPos e = true := by
    simp [unicodeLenPos, henc]
    exact List.length_pos.mpr hes
  have hst1 : ∀ st1 : TaintState, st1.map = st.map →
      get_tainted_object text st1 = some t := by
    intro st1 hm
    rw [get_tainted_object, hm]
    exact hget
  set result_o : PyObj := ⟨st.nextObjId, .unicode decoded, false⟩ with hro
  set st1 : TaintState := { st with nextObjId := st.nextObjId + 1 } with hst1d
  have hgr : get_ranges text st1
      = ((copyRanges t.ranges st.nextRid).1,
          { st1 with nextRid := (copyRanges t.ranges st.nextRid).2 }) := by
    simp [get_ranges, hst1 st1 rfl]
  have hcop : (copyRanges t.ranges st.nextRid).1 ≠ [] := by
    intro hc
    apply hne
    have hl := copyRanges_length t.ranges st.nextRid
    rw [hc] at hl
    exact List.length_eq_zero.mp hl.symm
  have hprop : str_aspect_propagate none true text result_o st1 log
      = (result_o,
          set_lengthupdated_ranges result_o decoded.length
            (copyRanges t.ranges st.nextRid).1
            { st1 with nextRid := (copyRanges t.ranges st.nextRid).2 },
          log) := by
    simp only [str_aspect_propagate, hgr]
    rw [if_neg (by simp [hst1d, hmap])]
    rw [if_neg hcop]
    rw [htext, hro]
    simp only [get_pyobject_size, pyStr]
    rw [show strFind decoded ('b' :: '\'' :: (bb ++ ['\''])) = none from hfind]
  have hapi : api_str_aspect none true text (.two e) [] st log
      = (.ok (str_aspect_propagate none true text result_o st1 log).1,
          (str_aspect_propagate none true text result_o st1 log).2) := by
    simp [api_str_aspect, nargs_of, get_args, get_args_kwloop, henclen, htext, is_text,
      is_bytes_like, hdec, freshObj, hro, hst1d]
  have hset : set_lengthupdated_ranges result_o decoded.length
        (copyRanges t.ranges st.nextRid).1
        { st1 with nextRid := (copyRanges t.ranges st.nextRid).2 }
      = set_tainted_object result_o
          ⟨(((copyRanges t.ranges st.nextRid).1).map
              (fun r => { r with length := decoded.length })).take TAINT_RANGE_LIMIT⟩
          { st1 with nextRid := (copyRanges t.ranges st.nextRid).2 } := by
    rw [set_lengthupdated_ranges, if_neg (by simp [hst1d, hmap])]
    rfl
  refine ⟨result_o, ?_, rfl, ?_⟩
  · rw [hapi, hprop]
  · rw [hapi, hprop]
    refine ⟨⟨(((copyRanges t.ranges st.nextRid).1).map
        (fun r => { r with length := decoded.length })).take TAINT_RANGE_LIMIT⟩, ?_, ?_⟩
    · simp only [hset, set_tainted_object]
      exact mapLookup_mapInsert_self _ _ _
    · have hlen : (((copyRanges t.ranges st.nextRid).1).map
          (fun r => { r with length := decoded.length })).length ≤ TAINT_RANGE_LIMIT := by
        rw [List.length_map, copyRanges_length]
        exact hcap
      rw [List.take_of_length_le hlen, List.map_map]
      exact copyRanges_fst_map (fun r => rangeVal { r with length := decoded.length })
        (fun _ _ => rfl) t.ranges st.nextRid

/-- C7, witness: decoding tainted `b"abc"` with `"utf-8"` rewrites its range
`(0,2,1)` to cover the whole three-character output, `(0,3,1)`. -/
theorem C7_witness :
    ∃ r, (api_str_aspect none true ⟨1, .bytes "abc".toList, true⟩
          (.two ⟨9, .unicode "utf-8".toList, false⟩) []
          ⟨[(1, ⟨[⟨0, 0, 2, 1⟩]⟩)], 10, 50⟩ []).1 = .ok r
      ∧ r.content = .unicode "abc".toList
      ∧ ∃ t', mapLookup (api_str_aspect none true ⟨1, .bytes "abc".toList, true⟩
            (.two ⟨9, .unicode "utf-8".toList, false⟩) []
            ⟨[(1, ⟨[⟨0, 0, 2, 1⟩]⟩)], 10, 50⟩ []).2.1.map r.id = some t'
        ∧ t'.ranges.map rangeVal
            = ([⟨0, 0, 2, 1⟩] : List TaintRange).map
                (fun rg => (rg.start, ("abc".toList).length, rg.source)) :=
  C7_theorem ⟨1, .bytes "abc".toList, true⟩ ⟨9, .unicode "utf-8".toList, false⟩
    ⟨[(1, ⟨[⟨0, 0, 2, 1⟩]⟩)], 10, 50⟩ [] "abc".toList "utf-8".toList "abc".toList
    ⟨[⟨0, 0, 2, 1⟩]⟩ (by decide) (by decide) (by decide) (by rfl) (by decide) (by decide)
    (by decide) (by decide) (by decide)

/-! ## C8: arity failure for more than 3 effective arguments -/

theorem get_args_kwloop_le (kwargs : List (String × PyObj)) :
    ∀ (eff : Nat) (enc err : Option PyObj), eff ≤ 4 →
      (get_args_kwloop kwargs eff enc err).1 ≤ 4 := by
  induction kwargs with
  | nil => intro eff enc err h; simpa [get_args_kwloop] using h
  | cons kv rest ih =>
      obtain ⟨k, v⟩ := kv
      intro eff enc err h
      simp only [get_args_kwloop]
      split_ifs with h1 h2 h3
      · simpa using h
      · exact ih (eff + 1) _ _ (by omega)
      · exact ih (eff + 1) _ _ (by omega)
      · exact ih eff _ _ h

theorem get_args_fst_le (pos : PosArgs) (kwargs : List (String × PyObj)) :
    (get_args pos kwargs).1 ≤ 4 := by
  cases pos with
  | one => exact get_args_kwloop_le kwargs 1 none none (by omega)
  | two e => exact get_args_kwloop_le kwargs 2 (some e) none (by omega)
  | three e r => exact get_args_kwloop_le kwargs 3 (some e) (some r) (by omega)
  | moreThanFive extra => simp [get_args]

/-- C8, counterexample.  A call supplying more than three effective positional
arguments (`nargs > 5`, e.g. `str(v, enc, err, extra)`) hits the aspect's own
nargs guard (AspectStr.cpp:77-80) and fails with the aspect's ValueError —
while the un-instrumented operation rejects a wrong argument count with a
TypeError (the very class the aspect itself mimics in its `effective_args > 3`
branch).  A ValueError equals no TypeError, so the call does not fail as the
underlying operation would, refuting the claim as stated. -/
theorem C8_counterexample :
    (api_str_aspect none true ⟨0, .bytes ['a'], true⟩ (.moreThanFive 0) [] ⟨[], 0, 10⟩ []).1
        = .error (.valueError MSG_ERROR_N_PARAMS)
    ∧ ∀ msg, (Except.error (PyError.valueError MSG_ERROR_N_PARAMS) : Except PyError PyObj)
        ≠ .error (.typeError msg) := by
  constructor
  · rfl
  · intro msg h
    simp at h

/-- C8 (amended): a call resolving to more than 3 effective arguments through
the keyword loop (at most 3 of them positional) fails with a TypeError — the
same error class as the underlying operation — reading `str() takes at most 3
arguments (4 given)`, the reported count being capped at 4 by the loop's early
break regardless of how many arguments were supplied; but a call supplying
more than three positional effective arguments (`nargs > 5`) fails with the
aspect's own ValueError, which is not the underlying operation's TypeError. -/
theorem C8_amended :
    (∀ (fault : Option String) (enabled : Bool) (text : PyObj) (pos : PosArgs)
        (kwargs : List (String × PyObj)) (st : TaintState) (log : List String),
      3 < (get_args pos kwargs).1 →
      (api_str_aspect fault enabled text pos kwargs st log).1
        = .error (.typeError "str() takes at most 3 arguments (4 given)")) ∧
    (∀ (fault : Option String) (enabled : Bool) (text : PyObj) (extra : Nat)
        (kwargs : List (String × PyObj)) (st : TaintState) (log : List String),
      api_str_aspect fault enabled text (.moreThanFive extra) kwargs st log
        = (.error (.valueError MSG_ERROR_N_PARAMS), st, log)) ∧
    (∀ msg, PyError.valueError MSG_ERROR_N_PARAMS ≠ .typeError msg) := by
  have hmsg : ("str() takes at most 3 arguments (" ++ toString (4 : Nat) ++ " given)")
      = "str() takes at most 3 arguments (4 given)" := by decide
  refine ⟨?_, ?_, ?_⟩
  · intro fault enabled text pos kwargs st log h4
    have hle : (get_args pos kwargs).1 ≤ 4 := get_args_fst_le pos kwargs
    have heq : (get_args pos kwargs).1 = 4 := by omega
    cases pos with
    | moreThanFive extra => simp [get_args] at h4
    | one =>
        simp only [api_str_aspect, heq]
        rw [if_neg (by simp [nargs_of])]
        rw [if_pos (by omega : (3 : Nat) < 4)]
        rw [hmsg]
    | two e =>
        simp only [api_str_aspect, heq]
        rw [if_neg (by simp [nargs_of])]
        rw [if_pos (by omega : (3 : Nat) < 4)]
        rw [hmsg]
    | three e r =>
        simp only [api_str_aspect, heq]
        rw [if_neg (by simp [nargs_of])]
        rw [if_pos (by omega : (3 : Nat) < 4)]
        rw [hmsg]
  · intro fault enabled text extra kwargs st log
    simp only [api_str_aspect]
    rw [if_pos (Or.inr (by simp only [nargs_of]; omega))]
  · intro msg h
    exact PyError.noConfusion h

/-- C8, witness: with encoding and errors positional plus an `encoding`
keyword (four effective arguments) the aspect raises the capped TypeError,
and with one extra positional argument it raises its own ValueError, which
differs from every TypeError. -/
theorem C8_witness :
    (api_str_aspect none true ⟨0, .bytes ['a'], true⟩
        (.three ⟨1, .unicode "utf-8".toList, false⟩ ⟨2, .unicode "strict".toList, false⟩)
        [("encoding", ⟨1, .unicode "utf-8".toList, false⟩)] ⟨[], 0, 10⟩ []).1
      = .error (.typeError "str() takes at most 3 arguments (4 given)")
    ∧ api_str_aspect none true ⟨0, .bytes ['a'], true⟩ (.moreThanFive 2) [] ⟨[], 0, 10⟩ []
      = (.error (.valueError MSG_ERROR_N_PARAMS), ⟨[], 0, 10⟩, [])
    ∧ PyError.valueError MSG_ERROR_N_PARAMS ≠ .typeError "str() takes at most 3 arguments (4 given)" :=
  ⟨C8_amended.1 none true ⟨0, .bytes ['a'], true⟩
      (.three ⟨1, .unicode "utf-8".toList, false⟩ ⟨2, .unicode "strict".toList, false⟩)
      [("encoding", ⟨1, .unicode "utf-8".toList, false⟩)] ⟨[], 0, 10⟩ [] (by decide),
    C8_amended.2.1 none true ⟨0, .bytes ['a'], true⟩ 2 [] ⟨[], 0, 10⟩ [],
    C8_amended.2.2 "str() takes at most 3 arguments (4 given)"⟩

end TaintTracking
